import Mathlib

/-!
Verification of the signaling broker (`src/peer/Broker.js`) of the hookup
repository.  The broker's event-driven logic is embedded shallowly: each
JavaScript promise becomes a write-once settlement cell (`settle`), each
closure-captured boolean flag becomes a field of an explicit state record,
and each group of event handlers becomes a step function over an inductive
event type.  Event delivery in the single-threaded JS runtime is an
interleaved sequence, modelled as a list folded over by a `run` function.
-/

namespace Hookup

/-- A write-once settlement cell, modelling a JS promise's resolve/reject:
the first settlement wins, later settlements are ignored. -/
def settle {α : Type} (cell : Option α) (v : α) : Option α :=
  match cell with
  | none => some v
  | some w => some w

theorem settle_some {α : Type} (v w : α) : settle (some w) v = some w := rfl

theorem settle_none {α : Type} (v : α) : settle (none : Option α) v = some v := rfl

/-- An opaque WebRTC session description; the broker only inspects the
`type` discriminant ("offer" vs "answer"). -/
structure SessionDescription where
  type : String
  sdp : String
deriving DecidableEq, Repr

/-- The signaling message shape `{ type, from, to, offer }` used both for
the outbound connect request built in `initiateConnection` and for inbound
request dispatch. -/
structure Message where
  type : String
  «from» : String
  «to» : String
  offer : SessionDescription
deriving DecidableEq, Repr

/-- `const TRICKLE = false` (Broker.js line 13). -/
def TRICKLE : Bool := false

/-! ## Broker socket readiness machine

Broker.js lines 52-81: the `ready` promise is settled by the socket's
`onopen` / `onerror` handlers, guarded by the closure variable
`connecting`; `onclose` only emits a `close` event. -/

/-- Events delivered by the relay WebSocket to the broker's handlers. -/
inductive SocketEvent where
  | onopen
  | onclose
  | onerror (err : String)
deriving DecidableEq, Repr

/-- Events the broker emits to its observers from the socket handlers. -/
inductive BrokerEmit where
  | eOpen
  | eClose
  | eError (err : String)
deriving DecidableEq, Repr

/-- The state captured by the `ready` promise executor in the Broker
constructor: the `connecting` flag and the promise cell. -/
structure BrokerSockState where
  connecting : Bool
  ready : Option (Except String Unit)
deriving Repr

def initBrokerSock : BrokerSockState := { connecting := true, ready := none }

/-- One socket event handled by the broker's handlers (Broker.js 52-81).
`onopen` emits `open` and, if still connecting, resolves `ready`;
`onclose` emits `close`; `onerror` rejects `ready` if still connecting,
otherwise emits `error`. -/
def stepBrokerSock (s : BrokerSockState) : SocketEvent → BrokerSockState × List BrokerEmit
  | SocketEvent.onopen =>
      if s.connecting then
        ({ connecting := false, ready := settle s.ready (Except.ok ()) },
         [BrokerEmit.eOpen])
      else (s, [BrokerEmit.eOpen])
  | SocketEvent.onclose => (s, [BrokerEmit.eClose])
  | SocketEvent.onerror err =>
      if s.connecting then
        ({ connecting := false, ready := settle s.ready (Except.error err) }, [])
      else (s, [BrokerEmit.eError err])

/-- Fold a sequence of socket events through the handlers, accumulating
the emitted events. -/
def runBrokerSock (s : BrokerSockState) : List SocketEvent → BrokerSockState × List BrokerEmit
  | [] => (s, [])
  | e :: rest =>
      let step := stepBrokerSock s e
      let cont := runBrokerSock step.1 rest
      (cont.1, step.2 ++ cont.2)

/-- The settlement dictated by the first open/error event of a socket
trace; close events do not settle. -/
def brokerFirstSettle : List SocketEvent → Option (Except String Unit)
  | [] => none
  | SocketEvent.onopen :: _ => some (Except.ok ())
  | SocketEvent.onerror e :: _ => some (Except.error e)
  | SocketEvent.onclose :: rest => brokerFirstSettle rest

theorem stepBrokerSock_not_connecting (s : BrokerSockState) (e : SocketEvent)
    (h : s.connecting = false) : (stepBrokerSock s e).1 = s := by
  cases e <;> simp [stepBrokerSock, h]

theorem runBrokerSock_not_connecting (s : BrokerSockState) (evs : List SocketEvent)
    (h : s.connecting = false) : (runBrokerSock s evs).1 = s := by
  induction evs with
  | nil => rfl
  | cons e rest ih =>
      simp only [runBrokerSock]
      rw [stepBrokerSock_not_connecting s e h]
      exact ih

theorem runBrokerSock_ready_of_connecting (evs : List SocketEvent) :
    ∀ s : BrokerSockState, s.connecting = true → s.ready = none →
      (runBrokerSock s evs).1.ready = brokerFirstSettle evs := by
  induction evs with
  | nil => intro s _ hr; simpa [runBrokerSock, brokerFirstSettle] using hr
  | cons e rest ih =>
      intro s hc hr
      cases e with
      | onopen =>
          simp only [runBrokerSock, stepBrokerSock, hc, if_true]
          rw [runBrokerSock_not_connecting _ rest rfl]
          simp [brokerFirstSettle, hr, settle]
      | onclose =>
          simp only [runBrokerSock, stepBrokerSock]
          exact ih s hc hr
      | onerror err =>
          simp only [runBrokerSock, stepBrokerSock, hc, if_true]
          rw [runBrokerSock_not_connecting _ rest rfl]
          simp [brokerFirstSettle, hr, settle]

/-! ## Initiator handshake machine

Broker.js lines 116-154: the `ready` promise of `initiateConnection`.
Handlers on the SimplePeer capability: `once('error')`, `on('signal')`
(an offer triggers a correlated connect request whose resolution feeds
the answer back via `peer.signal`, and whose rejection rejects `ready`
if still connecting), and `once('connect')`. -/

/-- Events delivered to the initiator side: capability events plus the
settlement callbacks of the in-flight connect request. -/
inductive PeerEvent where
  | signal (data : SessionDescription)
  | connect
  | error (err : String)
  | requestResolved (answer : SessionDescription)
  | requestRejected (err : String)
deriving DecidableEq, Repr

/-- Observable actions performed by the initiator's handlers:
`sendRequest` models `this.connection.request(message)` and `signalPeer`
models `peer.signal(answer)`. -/
inductive InitAction where
  | sendRequest (message : Message)
  | signalPeer (data : SessionDescription)
deriving DecidableEq, Repr

/-- The state captured by the `ready` promise executor in
`initiateConnection`: the `connecting` flag, the one-shot markers of the
`once` listeners, and the promise cell. -/
structure InitState where
  connecting : Bool
  onceErrorFired : Bool
  onceConnectFired : Bool
  ready : Option (Except String Unit)
deriving Repr

def initInitState : InitState :=
  { connecting := true, onceErrorFired := false, onceConnectFired := false,
    ready := none }

/-- One event handled by the initiator's handlers (Broker.js 116-154). -/
def stepInit («from» «to» : String) (s : InitState) :
    PeerEvent → InitState × List InitAction
  | PeerEvent.error err =>
      if s.onceErrorFired then (s, [])
      else if s.connecting then
        ({ s with
            onceErrorFired := true
            connecting := false
            ready := settle s.ready (Except.error err) }, [])
      else ({ s with onceErrorFired := true }, [])
  | PeerEvent.signal data =>
      if data.type = "offer" then
        (s, [InitAction.sendRequest
              { type := "connect", «from» := «from», «to» := «to», offer := data }])
      else (s, [])
  | PeerEvent.requestResolved answer => (s, [InitAction.signalPeer answer])
  | PeerEvent.requestRejected err =>
      if s.connecting then
        ({ s with
            connecting := false
            ready := settle s.ready (Except.error err) }, [])
      else (s, [])
  | PeerEvent.connect =>
      if s.onceConnectFired then (s, [])
      else if s.connecting then
        ({ s with
            onceConnectFired := true
            connecting := false
            ready := settle s.ready (Except.ok ()) }, [])
      else ({ s with onceConnectFired := true }, [])

/-- Fold a sequence of events through the initiator's handlers,
accumulating the actions. -/
def runInit («from» «to» : String) (s : InitState) :
    List PeerEvent → InitState × List InitAction
  | [] => (s, [])
  | e :: rest =>
      let step := stepInit «from» «to» s e
      let cont := runInit «from» «to» step.1 rest
      (cont.1, step.2 ++ cont.2)

/-- The settlement dictated by the first settling event of an initiator
trace: `connect` resolves, a capability `error` or a request rejection
rejects with that error; signals and request resolutions do not settle. -/
def initFirstSettle : List PeerEvent → Option (Except String Unit)
  | [] => none
  | PeerEvent.connect :: _ => some (Except.ok ())
  | PeerEvent.error e :: _ => some (Except.error e)
  | PeerEvent.requestRejected e :: _ => some (Except.error e)
  | PeerEvent.signal _ :: rest => initFirstSettle rest
  | PeerEvent.requestResolved _ :: rest => initFirstSettle rest

theorem stepInit_ready_settled («from» «to» : String) (s : InitState) (e : PeerEvent)
    (r : Except String Unit) (h : s.ready = some r) :
    ((stepInit «from» «to» s e).1).ready = some r := by
  cases e <;> simp only [stepInit] <;> (repeat' split) <;>
    simp_all [settle_some]

theorem stepInit_not_connecting_ready («from» «to» : String) (s : InitState)
    (e : PeerEvent) (h : s.connecting = false) :
    ((stepInit «from» «to» s e).1).ready = s.ready ∧
      ((stepInit «from» «to» s e).1).connecting = false := by
  cases e <;> simp only [stepInit] <;> (repeat' split) <;> simp_all

theorem runInit_not_connecting_ready («from» «to» : String) (evs : List PeerEvent) :
    ∀ s : InitState, s.connecting = false →
      ((runInit «from» «to» s evs).1).ready = s.ready := by
  induction evs with
  | nil => intro s _; rfl
  | cons e rest ih =>
      intro s h
      simp only [runInit]
      have hstep := stepInit_not_connecting_ready «from» «to» s e h
      rw [ih _ hstep.2, hstep.1]

theorem runInit_ready_of_connecting («from» «to» : String) (evs : List PeerEvent) :
    ∀ s : InitState, s.connecting = true → s.ready = none →
      s.onceErrorFired = false → s.onceConnectFired = false →
      ((runInit «from» «to» s evs).1).ready = initFirstSettle evs := by
  induction evs with
  | nil => intro s _ hr _ _; simpa [runInit, initFirstSettle] using hr
  | cons e rest ih =>
      intro s hc hr he hcf
      cases e with
      | signal data =>
          simp only [runInit, stepInit]
          split <;> exact ih s hc hr he hcf
      | requestResolved a =>
          simp only [runInit, stepInit]
          exact ih s hc hr he hcf
      | connect =>
          simp only [runInit, stepInit, hcf, hc, if_false, if_true]
          rw [runInit_not_connecting_ready «from» «to» rest _ rfl]
          simp [initFirstSettle, hr, settle]
      | error err =>
          simp only [runInit, stepInit, he, hc, if_false, if_true]
          rw [runInit_not_connecting_ready «from» «to» rest _ rfl]
          simp [initFirstSettle, hr, settle]
      | requestRejected err =>
          simp only [runInit, stepInit, hc, if_true]
          rw [runInit_not_connecting_ready «from» «to» rest _ rfl]
          simp [initFirstSettle, hr, settle]

/-! ## SimplePeer configuration and Connection objects

Broker.js lines 93-114 (initiator configuration with the default STUN
server list), line 156 (`new Connection(to, peer, ready)`), lines 170-173
(responder configuration) and line 215
(`new Connection(message.from, peer, ready)`). -/

structure IceServerEntry where
  urls : List String
deriving DecidableEq, Repr

/-- The iceServers list passed to the initiator-side SimplePeer
(Broker.js lines 96-113). -/
def defaultIceServers : List IceServerEntry :=
  [ { urls :=
        [ "stun:stun.l.google.com:19302",
          "stun:stun1.l.google.com:19302",
          "stun:stun2.l.google.com:19302",
          "stun:stun3.l.google.com:19302",
          "stun:stun4.l.google.com:19302" ] } ]

/-- The options object passed to the SimplePeer constructor; the
responder side passes no `config` member. -/
structure SimplePeerCfg where
  initiator : Bool
  trickle : Bool
  config : Option (List IceServerEntry)
deriving DecidableEq, Repr

/-- A `Connection` as constructed in Broker.js: the remote peer id, the
wrapped capability, and the embedded readiness cell at construction
time (the class itself lives in `src/peer/Connection.js`; only its
constructor arguments matter here). -/
structure Connection where
  remote : String
  peer : SimplePeerCfg
  readyCell : Option (Except String Unit)
deriving Repr

/-- `initiateConnection(from, to)` seen at return time (Broker.js
90-157): the Connection is returned synchronously, before any handshake
event has been processed, so its readiness cell is that of
`initInitState`. -/
def initiateConnection («from» «to» : String) : Connection :=
  { remote := «to»,
    peer := { initiator := true, trickle := TRICKLE,
              config := some defaultIceServers },
    readyCell := initInitState.ready }

/-! ## Responder machine

Broker.js lines 165-217, `_acceptConnection(message)`.  Two promise
cells: the outer request result (resolved with the answer signal,
rejected on error) and the inner `ready` promise of the emitted
Connection.  On an `error` event the registered listeners fire in
registration order: the inner `once('error')` (guarded by `done`), the
outer `once('error', reject)` (unguarded), and the outer `on('error')`
(guarded by `connecting`). -/

/-- Capability events delivered to the responder's handlers. -/
inductive CapEvent where
  | signal (data : SessionDescription)
  | connect
  | error (err : String)
deriving DecidableEq, Repr

/-- The state captured by the two promise executors in
`_acceptConnection`. -/
structure AcceptState where
  connecting : Bool
  innerDone : Bool
  innerOnceConnectFired : Bool
  innerOnceErrorFired : Bool
  outerOnceErrorFired : Bool
  result : Option (Except String SessionDescription)
  readyCell : Option (Except String Unit)
deriving Repr

def initAcceptState : AcceptState :=
  { connecting := true, innerDone := false, innerOnceConnectFired := false,
    innerOnceErrorFired := false, outerOnceErrorFired := false,
    result := none, readyCell := none }

/-- One capability event handled by the responder's listeners
(Broker.js 175-210). -/
def stepAccept (s : AcceptState) : CapEvent → AcceptState
  | CapEvent.connect =>
      if s.innerOnceConnectFired then s
      else
        { s with
            innerOnceConnectFired := true
            innerDone := true
            readyCell := settle s.readyCell (Except.ok ()) }
  | CapEvent.signal data =>
      if data.type = "answer" then
        if s.connecting then
          { s with
              connecting := false
              result := settle s.result (Except.ok data) }
        else s
      else s
  | CapEvent.error err =>
      let s1 :=
        if s.innerOnceErrorFired then s
        else
          { s with
              innerOnceErrorFired := true
              readyCell :=
                if s.innerDone then s.readyCell
                else settle s.readyCell (Except.error err) }
      let s2 :=
        if s1.outerOnceErrorFired then s1
        else
          { s1 with
              outerOnceErrorFired := true
              result := settle s1.result (Except.error err) }
      if s2.connecting then
        { s2 with
            connecting := false
            result := settle s2.result (Except.error err) }
      else s2

def runAccept (s : AcceptState) : List CapEvent → AcceptState
  | [] => s
  | e :: rest => runAccept (stepAccept s e) rest

/-- The synchronous part of `_acceptConnection(message)`: the responder
capability is created with `initiator: false, trickle: TRICKLE`, the
inbound offer is fed to it via `peer.signal(message.offer)`, and a
`connection` event carrying `new Connection(message.from, peer, ready)`
is emitted — all before any capability event is processed. -/
structure AcceptRun where
  peer : SimplePeerCfg
  fedSignals : List SessionDescription
  emitted : List Connection
  state : AcceptState
deriving Repr

def _acceptConnection (message : Message) : AcceptRun :=
  { peer := { initiator := false, trickle := TRICKLE, config := none },
    fedSignals := [message.offer],
    emitted :=
      [ { remote := message.«from»,
          peer := { initiator := false, trickle := TRICKLE, config := none },
          readyCell := initAcceptState.readyCell } ],
    state := initAcceptState }

/-- Capability events only invoke the listeners registered in
`_acceptConnection`, which touch the promise cells and flags; the
already-emitted `connection` event and the already-fed offer are not
revisited. -/
def runAcceptRun (r : AcceptRun) (evs : List CapEvent) : AcceptRun :=
  { r with state := runAccept r.state evs }

/-- The settlement of the outer request promise dictated by the first
answer-signal or error event of a trace. -/
def acceptFirstSettle : List CapEvent → Option (Except String SessionDescription)
  | [] => none
  | CapEvent.signal d :: rest =>
      if d.type = "answer" then some (Except.ok d) else acceptFirstSettle rest
  | CapEvent.error e :: _ => some (Except.error e)
  | CapEvent.connect :: rest => acceptFirstSettle rest

theorem stepAccept_readyCell_settled (s : AcceptState) (e : CapEvent)
    (r : Except String Unit) (h : s.readyCell = some r) :
    (stepAccept s e).readyCell = some r := by
  cases e <;> simp only [stepAccept] <;> (repeat' split) <;>
    simp_all [settle_some]

theorem stepAccept_result_settled (s : AcceptState) (e : CapEvent)
    (r : Except String SessionDescription) (h : s.result = some r) :
    (stepAccept s e).result = some r := by
  cases e <;> simp only [stepAccept] <;> (repeat' split) <;>
    simp_all [settle_some]

theorem stepAccept_not_connecting (s : AcceptState) (e : CapEvent)
    (h : s.connecting = false) : (stepAccept s e).connecting = false := by
  cases e <;> simp only [stepAccept] <;> (repeat' split) <;> simp_all

theorem runAccept_result_settled (evs : List CapEvent) :
    ∀ s : AcceptState, ∀ r : Except String SessionDescription,
      s.result = some r → (runAccept s evs).result = some r := by
  induction evs with
  | nil => intro s r h; exact h
  | cons e rest ih =>
      intro s r h
      exact ih _ r (stepAccept_result_settled s e r h)

theorem stepAccept_error_result (s : AcceptState) (err : String)
    (hr : s.result = none) (ho : s.outerOnceErrorFired = false) :
    (stepAccept s (CapEvent.error err)).result = some (Except.error err) := by
  by_cases hi : s.innerOnceErrorFired = true <;>
    by_cases hc : s.connecting = true <;>
      simp [stepAccept, hi, hc, ho, hr, settle_none, settle_some]

theorem runAccept_result_of_connecting (evs : List CapEvent) :
    ∀ s : AcceptState, s.connecting = true → s.result = none →
      s.outerOnceErrorFired = false →
      (runAccept s evs).result = acceptFirstSettle evs := by
  induction evs with
  | nil => intro s _ hr _; simpa [runAccept, acceptFirstSettle] using hr
  | cons e rest ih =>
      intro s hc hr ho
      cases e with
      | connect =>
          simp only [runAccept, stepAccept]
          split
          · exact ih s hc hr ho
          · exact ih _ hc hr ho
      | signal data =>
          by_cases hd : data.type = "answer"
          · simp only [runAccept, stepAccept, hd, hc, if_true]
            have : (runAccept
                { s with
                    connecting := false
                    result := settle s.result (Except.ok data) } rest).result
                = some (Except.ok data) := by
              apply runAccept_result_settled
              simp [hr, settle_none]
            simpa [acceptFirstSettle, hd] using this
          · simp only [runAccept, stepAccept, hd, if_false]
            simpa [acceptFirstSettle, hd] using ih s hc hr ho
      | error err =>
          simp only [runAccept]
          have h1 := stepAccept_error_result s err hr ho
          have h2 := runAccept_result_settled rest _ _ h1
          rw [h2]
          simp [acceptFirstSettle]

/-! ## Request dispatch and the Broker object

Broker.js lines 40-49: `this.functions` holds the registered handlers
(only `connect`); the `request` listener looks the handler up by
`message.type` and throws `Unknown message type "..."` when none is
registered.  The Transacted Channel (`src/shared/requestify`) that
forwards a handler throw to the remote caller as a failed response is
not part of the provided sources and is modelled from the spec. -/

/-- The handler invocation selected by the request listener. -/
inductive HandlerCall where
  | acceptConn (message : Message)
deriving DecidableEq, Repr

/-- `this.functions` (Broker.js 40-42): the map from message type to
handler, with only the `connect` entry registered. -/
def brokerFunctions : String → Option (Message → HandlerCall) :=
  fun t => if t = "connect" then some (fun m => HandlerCall.acceptConn m) else none

/-- The `request` listener (Broker.js 43-49): look up the handler by the
message's type; throw an unknown-message-type error when there is none. -/
def brokerRequestListener (message : Message) : Except String HandlerCall :=
  match brokerFunctions message.type with
  | none =>
      Except.error ("Unknown message type \"" ++ message.type ++ "\"")
  | some fn => Except.ok (fn message)

/-- A response envelope carrying the correlation id of the request it
answers and, on failure, the error. -/
structure ResponseEnvelope where
  id : Nat
  error : Option String
deriving DecidableEq, Repr

inductive DispatchOutcome where
  | failureResponse (resp : ResponseEnvelope)
  | handlerInvoked (call : HandlerCall)
deriving DecidableEq, Repr

/-- The state of a Broker instance (Broker.js 20-82): the relay url, the
socket (its closed flag and the readiness machine built on its
handlers), the keys of the registered request handlers, and — for frame
reasoning — the Connections its environment holds, each owning its own
capability independent of the relay. -/
structure ConnPeerState where
  remoteId : String
  cfg : SimplePeerCfg
  connected : Bool
  errored : Option String
  ready : Option (Except String Unit)
deriving Repr

structure Broker where
  url : String
  socketClosed : Bool
  sock : BrokerSockState
  handlerKeys : List String
  connections : List ConnPeerState
deriving Repr

/-- `close()` (Broker.js 219-221): `this.socket.close()` and nothing
else. -/
def Broker.close (b : Broker) : Broker := { b with socketClosed := true }

/-- Modelled from the spec: the Transacted Channel
(`src/shared/requestify.js`, not among the provided sources)
dispatches an inbound request envelope by invoking the registered
handler on the broker; a handler throw is sent back to the remote
caller as a response-level failure tagged with the request's
correlation id, and is not raised locally — the broker itself is left
untouched. -/
def channelDispatchRequest (b : Broker) (id : Nat) (message : Message) :
    Broker × DispatchOutcome :=
  match brokerRequestListener message with
  | Except.error e =>
      (b, DispatchOutcome.failureResponse { id := id, error := some e })
  | Except.ok call => (b, DispatchOutcome.handlerInvoked call)

/-! ## Remaining helper lemmas -/

theorem runInit_ready_settled («from» «to» : String) (evs : List PeerEvent) :
    ∀ s : InitState, ∀ r : Except String Unit, s.ready = some r →
      ((runInit «from» «to» s evs).1).ready = some r := by
  induction evs with
  | nil => intro s r h; exact h
  | cons e rest ih =>
      intro s r h
      simp only [runInit]
      exact ih _ r (stepInit_ready_settled «from» «to» s e r h)

theorem runAccept_readyCell_settled (evs : List CapEvent) :
    ∀ s : AcceptState, ∀ r : Except String Unit, s.readyCell = some r →
      (runAccept s evs).readyCell = some r := by
  induction evs with
  | nil => intro s r h; exact h
  | cons e rest ih =>
      intro s r h
      exact ih _ r (stepAccept_readyCell_settled s e r h)

/-! ## The claims -/

/-- C1: in `initiateConnection(from, to)`, whenever the capability emits a
signal whose type discriminant is "offer", the handler performs exactly one
action, sending the correlated request `{type: "connect", from, to, offer}`
over the Transacted Channel; and when that request resolves with an answer,
the handler performs exactly one action, feeding the answer back into the
same capability via its signal method. -/
theorem initiateConnection_offer_sends_connect_request
    («from» «to» : String) (s : InitState)
    (d a : SessionDescription) (hd : d.type = "offer") :
    stepInit «from» «to» s (PeerEvent.signal d)
      = (s, [InitAction.sendRequest
              { type := "connect", «from» := «from», «to» := «to», offer := d }]) ∧
    stepInit «from» «to» s (PeerEvent.requestResolved a)
      = (s, [InitAction.signalPeer a]) := by
  exact ⟨by simp [stepInit, hd], rfl⟩

/-- Witness for C1 at `from = "peer1"`, `to = "peer2"`, an offer `O1` and
an answer `A1`. -/
theorem initiateConnection_offer_sends_connect_request_witness :
    stepInit "peer1" "peer2" initInitState
        (PeerEvent.signal { type := "offer", sdp := "O1" })
      = (initInitState,
         [InitAction.sendRequest
            { type := "connect", «from» := "peer1", «to» := "peer2",
              offer := { type := "offer", sdp := "O1" } }]) ∧
    stepInit "peer1" "peer2" initInitState
        (PeerEvent.requestResolved { type := "answer", sdp := "A1" })
      = (initInitState,
         [InitAction.signalPeer { type := "answer", sdp := "A1" }]) :=
  initiateConnection_offer_sends_connect_request "peer1" "peer2" initInitState
    { type := "offer", sdp := "O1" } { type := "answer", sdp := "A1" } rfl

/-- C2: the broker's readiness promise settles exactly once — it is
determined by the first open/error socket event of the trace (resolving on
open, rejecting with the error on error, both while still connecting), and
once the connecting flag is cleared a further open or error event leaves
the state (hence the settled promise) untouched and is surfaced only as an
emitted open/error event. -/
theorem broker_ready_settles_once (evs : List SocketEvent)
    (s : BrokerSockState) (err : String) (h : s.connecting = false) :
    (runBrokerSock initBrokerSock evs).1.ready = brokerFirstSettle evs ∧
    stepBrokerSock s SocketEvent.onopen = (s, [BrokerEmit.eOpen]) ∧
    stepBrokerSock s (SocketEvent.onerror err) = (s, [BrokerEmit.eError err]) := by
  refine ⟨runBrokerSock_ready_of_connecting evs initBrokerSock rfl rfl, ?_, ?_⟩ <;>
    simp [stepBrokerSock, h]

/-- Witness for C2 on the trace open-close-error from an already settled
state. -/
theorem broker_ready_settles_once_witness :
    (runBrokerSock initBrokerSock
        [SocketEvent.onopen, SocketEvent.onclose, SocketEvent.onerror "e"]).1.ready
      = brokerFirstSettle
          [SocketEvent.onopen, SocketEvent.onclose, SocketEvent.onerror "e"] ∧
    stepBrokerSock { connecting := false, ready := some (Except.ok ()) }
        SocketEvent.onopen
      = ({ connecting := false, ready := some (Except.ok ()) }, [BrokerEmit.eOpen]) ∧
    stepBrokerSock { connecting := false, ready := some (Except.ok ()) }
        (SocketEvent.onerror "late")
      = ({ connecting := false, ready := some (Except.ok ()) },
         [BrokerEmit.eError "late"]) :=
  broker_ready_settles_once
    [SocketEvent.onopen, SocketEvent.onclose, SocketEvent.onerror "e"]
    { connecting := false, ready := some (Except.ok ()) } "late" rfl

/-- C3: a Connection's readiness promise settles at most once on both
sides: on the initiator side, once `ready` holds a settlement, any further
trace of capability events or request callbacks leaves it unchanged; on the
responder side, the same holds for the emitted Connection's ready cell. -/
theorem connection_ready_settles_at_most_once
    («from» «to» : String) (evs : List PeerEvent) (cevs : List CapEvent)
    (s : InitState) (t : AcceptState) (r r2 : Except String Unit)
    (hs : s.ready = some r) (ht : t.readyCell = some r2) :
    ((runInit «from» «to» s evs).1).ready = some r ∧
    (runAccept t cevs).readyCell = some r2 :=
  ⟨runInit_ready_settled «from» «to» evs s r hs,
   runAccept_readyCell_settled cevs t r2 ht⟩

/-- Witness for C3: a resolved initiator state survives a later error, a
rejected responder ready cell survives a later connect. -/
theorem connection_ready_settles_at_most_once_witness :
    ((runInit "peer1" "peer2"
        { connecting := false, onceErrorFired := false,
          onceConnectFired := true, ready := some (Except.ok ()) }
        [PeerEvent.error "late"]).1).ready = some (Except.ok ()) ∧
    (runAccept
        { initAcceptState with
            innerOnceErrorFired := true
            readyCell := some (Except.error "boom") }
        [CapEvent.connect]).readyCell = some (Except.error "boom") :=
  connection_ready_settles_at_most_once "peer1" "peer2"
    [PeerEvent.error "late"] [CapEvent.connect]
    { connecting := false, onceErrorFired := false,
      onceConnectFired := true, ready := some (Except.ok ()) }
    { initAcceptState with
        innerOnceErrorFired := true
        readyCell := some (Except.error "boom") }
    (Except.ok ()) (Except.error "boom") rfl rfl

/-- C4: from the initial state of `initiateConnection(from, to)`, the
readiness settlement equals the outcome of the first settling event of the
trace: a connect event resolves it, a capability error or a rejection of
the connect request rejects it with that error, and whichever of them
comes first determines the settlement. -/
theorem initiateConnection_first_event_wins («from» «to» : String)
    (evs : List PeerEvent) :
    ((runInit «from» «to» initInitState evs).1).ready = initFirstSettle evs :=
  runInit_ready_of_connecting «from» «to» evs initInitState rfl rfl rfl rfl

/-- C5: dispatching an inbound request whose type has no registered
handler (only "connect" is registered) yields a response-level failure
carrying the unknown-message-type error back to the caller, and leaves the
broker unchanged. -/
theorem broker_unknown_message_type (b : Broker) (id : Nat)
    (message : Message) (h : brokerFunctions message.type = none) :
    channelDispatchRequest b id message
      = (b, DispatchOutcome.failureResponse
          { id := id,
            error := some ("Unknown message type \"" ++ message.type ++ "\"") }) := by
  simp [channelDispatchRequest, brokerRequestListener, h]

/-- Witness for C5 at message type "ping". -/
theorem broker_unknown_message_type_witness :
    channelDispatchRequest
        { url := "wss://relay", socketClosed := false, sock := initBrokerSock,
          handlerKeys := ["connect"], connections := [] }
        7
        { type := "ping", «from» := "peer1", «to» := "peer2",
          offer := { type := "offer", sdp := "O1" } }
      = ({ url := "wss://relay", socketClosed := false, sock := initBrokerSock,
           handlerKeys := ["connect"], connections := [] },
         DispatchOutcome.failureResponse
           { id := 7, error := some "Unknown message type \"ping\"" }) :=
  broker_unknown_message_type
    { url := "wss://relay", socketClosed := false, sock := initBrokerSock,
      handlerKeys := ["connect"], connections := [] }
    7
    { type := "ping", «from» := "peer1", «to» := "peer2",
      offer := { type := "offer", sdp := "O1" } }
    (by simp [brokerFunctions])

/-- C6: `_acceptConnection(message)` creates the capability as responder
(initiator false, trickle disabled), feeds it exactly the inbound offer,
and its returned promise settles with the first answer signal of the
capability's trace, or rejects with the error if an error event comes
first. -/
theorem acceptConnection_answer_or_error (message : Message)
    (evs : List CapEvent) :
    (_acceptConnection message).peer.initiator = false ∧
    (_acceptConnection message).peer.trickle = false ∧
    (_acceptConnection message).fedSignals = [message.offer] ∧
    (runAcceptRun (_acceptConnection message) evs).state.result
      = acceptFirstSettle evs :=
  ⟨rfl, rfl, rfl,
   runAccept_result_of_connecting evs initAcceptState rfl rfl rfl⟩

/-- C7: `_acceptConnection(message)` emits, synchronously at invocation
time, exactly one `connection` event carrying a new Connection whose
remote peer id is `message.from`, and this emission is unaffected by any
later capability events and hence by how the handler's own promise
settles. -/
theorem acceptConnection_emits_connection (message : Message)
    (evs : List CapEvent) :
    (_acceptConnection message).emitted
      = [{ remote := message.«from»,
           peer := { initiator := false, trickle := TRICKLE, config := none },
           readyCell := none }] ∧
    (runAcceptRun (_acceptConnection message) evs).emitted
      = (_acceptConnection message).emitted :=
  ⟨rfl, rfl⟩

/-- C8: `initiateConnection(from, to)` returns, synchronously and with the
readiness cell still unsettled, a Connection wrapping a capability
configured with initiator true, trickle disabled and the default public
STUN server list, and carrying the remote peer id `to`. -/
theorem initiateConnection_returns_connection («from» «to» : String) :
    (initiateConnection «from» «to»).peer.initiator = true ∧
    (initiateConnection «from» «to»).peer.trickle = false ∧
    (initiateConnection «from» «to»).peer.config = some defaultIceServers ∧
    (initiateConnection «from» «to»).remote = «to» ∧
    (initiateConnection «from» «to»).readyCell = none :=
  ⟨rfl, rfl, rfl, rfl, rfl⟩

/-- C9: `Broker.close()` sets the socket's closed flag and changes nothing
else: the url, the readiness machine state, the registered handler keys
and every established Connection with its capability are left exactly as
they were. -/
theorem broker_close_frame (b : Broker) :
    (Broker.close b).socketClosed = true ∧
    (Broker.close b).url = b.url ∧
    (Broker.close b).sock = b.sock ∧
    (Broker.close b).handlerKeys = b.handlerKeys ∧
    (Broker.close b).connections = b.connections :=
  ⟨rfl, rfl, rfl, rfl, rfl⟩

/-- C10: in every state of the broker's socket machine — connecting or
not, settled or not — a close event leaves the state (and hence the
readiness promise) completely unchanged and only emits a `close` event. -/
theorem broker_close_event_never_settles (s : BrokerSockState) :
    stepBrokerSock s SocketEvent.onclose = (s, [BrokerEmit.eClose]) := rfl

end Hookup
